import Mathlib

/-!
Verification development for the SentinelDF Threat Detection & Risk Fusion
Engine (Python backend).  Each Python function relevant to the specified
properties is shallowly embedded as an executable Lean definition over exact
rationals; machine floats are modelled by ℚ and Python's banker's rounding
(`round`) by an explicit `pyRound`.  Definitions are translated from
`backend/app.py`, `backend/risk/fusion.py`, `backend/cache.py`,
`backend/detectors/embedding_outlier.py` and
`backend/detectors/heuristic_detector.py`.
-/

/-! ## Basic numeric helpers -/

/-- Python's built-in `round` on a rational: round half to even. -/
def pyRound (x : ℚ) : ℤ :=
  if 1/2 < x - (⌊x⌋ : ℚ) then ⌊x⌋ + 1
  else if x - (⌊x⌋ : ℚ) < 1/2 then ⌊x⌋
  else if ⌊x⌋ % 2 = 0 then ⌊x⌋ else ⌊x⌋ + 1

/-- Clamp a rational into [0,1]; embeds the Python idiom
`max(0.0, min(1.0, x))` used throughout `backend/app.py`. -/
def clamp01 (x : ℚ) : ℚ := max 0 (min 1 x)

/-! ## Risk fusion

`fusionCore` is the branch structure of `_combine_signals`
(`backend/app.py`, lines 234-249), applied to the already-clamped
heuristic and embedding signals. -/

def fusionCore (h e : ℚ) : ℚ :=
  if h < 3/20 then (1/10) * e
  else if 1/2 < h then min 1 ((4/5) * h + (1/5) * e)
  else (3/5) * h + (2/5) * e

/-- Embeds `_combine_signals(heuristic, embedding)` from `backend/app.py`:
clamp both inputs into [0,1], apply the priority-weighted rule, clamp the
result. -/
def combine_signals (heuristic embedding : ℚ) : ℚ :=
  clamp01 (fusionCore (clamp01 heuristic) (clamp01 embedding))

/-- Embeds `_risk_to_int(risk01)` from `backend/app.py`:
`int(round(max(0.0, min(1.0, risk01)) * 100))`. -/
def risk_to_int (risk01 : ℚ) : ℤ := pyRound (clamp01 risk01 * 100)

/-- Embeds the quarantine decision of `_analyze_document` (`backend/app.py`):
`quarantine = risk_int >= cfg.risk_quarantine_threshold`. -/
def analyze_quarantine (h e : ℚ) (threshold : ℤ) : Bool :=
  decide (threshold ≤ risk_to_int (combine_signals h e))

/-- Default `risk_quarantine_threshold` from `backend/utils/config.py`. -/
def risk_quarantine_threshold_default : ℤ := 70

/-- Default `heuristic_weight` from `backend/utils/config.py`. -/
def heuristic_weight_default : ℚ := 2/5

/-- Default `embedding_weight` from `backend/utils/config.py`. -/
def embedding_weight_default : ℚ := 3/5

/-- Embeds `fuse_scores(heur, embed, cfg)` from `backend/risk/fusion.py`:
validates both inputs in [0,1] (raising `ValueError` otherwise), then a flat
weighted average `heur*heuristic_weight + embed*embedding_weight`, scaled to
0-100, rounded, clamped to [0,100], with
`quarantine = risk_int >= cfg.risk_quarantine_threshold`. -/
def fuse_scores (heur embed hw ew : ℚ) (threshold : ℤ) :
    Except String (ℤ × Bool) :=
  if ¬ (0 ≤ heur ∧ heur ≤ 1) then Except.error "heur must be in [0, 1]"
  else if ¬ (0 ≤ embed ∧ embed ≤ 1) then Except.error "embed must be in [0, 1]"
  else
    let riskFloat := heur * hw + embed * ew
    let riskInt := max 0 (min 100 (pyRound (riskFloat * 100)))
    Except.ok (riskInt, decide (threshold ≤ riskInt))

/-- Combined-score formula written from the specification's own words
(spec section 4.3): three priority-weighted branches, no other clamping. -/
def specFusedCombined (h e : ℚ) : ℚ :=
  if h < 3/20 then (1/10) * e
  else if 1/2 < h then (4/5) * h + (1/5) * e
  else (3/5) * h + (2/5) * e

/-- Risk formula written from the specification's own words:
`risk = round(clamp(combined, 0, 1) * 100)`. -/
def specFusedRisk (h e : ℚ) : ℤ := pyRound (clamp01 (specFusedCombined h e) * 100)

/-! ## Heuristic detector final-score step

Lines 382-383 of `backend/detectors/heuristic_detector.py`:
`score = max(0.0, score) * self.weight` followed by
`score = min(1.0, score)`. -/

/-- Embeds the final-score step of `HeuristicDetector.detect` applied to the
raw accumulated family score: floor at 0, multiply by the global detector
weight, cap at 1. -/
def heuristic_finalize (raw weight : ℚ) : ℚ := min 1 (max 0 raw * weight)

/-- Final-score step written from the specification's words: the raw
accumulated score "is clamped to [0,1], multiplied by a configurable global
detector weight (default 0.4), and clamped again". -/
def spec_heuristic_finalize (raw weight : ℚ) : ℚ := clamp01 (clamp01 raw * weight)

/-- Default `weight` of `HeuristicDetector.__init__`
(`backend/detectors/heuristic_detector.py`, line 219). -/
def detector_weight_default : ℚ := 2/5

/-! ## Content cache

Embedding of `TTLCache` (`backend/cache.py`).  The `OrderedDict` is modelled
as a list of `(key, value, expiry)` triples whose head is the oldest
(least-recently-used) entry; `time.time()` is modelled by an explicit `now`
argument. -/

structure TTLCache where
  maxsize : ℕ
  ttl_sec : ℚ
  entries : List (ℕ × ℚ × ℚ)

/-- First-match association lookup, the model of `self._cache[key]`. -/
def lookupEntry : List (ℕ × ℚ × ℚ) → ℕ → Option (ℚ × ℚ)
  | [], _ => none
  | e :: rest, k => if e.1 = k then some e.2 else lookupEntry rest k

/-- Model of `del self._cache[key]`. -/
def eraseKey : List (ℕ × ℚ × ℚ) → ℕ → List (ℕ × ℚ × ℚ)
  | [], _ => []
  | e :: rest, k => if e.1 = k then eraseKey rest k else e :: eraseKey rest k

/-- Embeds `TTLCache._prune_expired`: drop every entry whose expiry time is
strictly before `now` (`current_time > expiry_time`). -/
def pruneExpired : List (ℕ × ℚ × ℚ) → ℚ → List (ℕ × ℚ × ℚ)
  | [], _ => []
  | e :: rest, now =>
    if e.2.2 < now then pruneExpired rest now else e :: pruneExpired rest now

/-- Embeds the `while len(self._cache) >= self.maxsize: self._evict_lru()`
loop of `TTLCache.set`: repeatedly drop the head (oldest entry). -/
def evictToFit : List (ℕ × ℚ × ℚ) → ℕ → List (ℕ × ℚ × ℚ)
  | [], _ => []
  | e :: rest, maxsize =>
    if maxsize ≤ (e :: rest).length then evictToFit rest maxsize else e :: rest

/-- Embeds `TTLCache.get`: miss on absent key; an expired entry is removed
and treated as a miss; a hit moves the entry to the most-recent end. -/
def TTLCache.get (c : TTLCache) (k : ℕ) (now : ℚ) : Option ℚ × TTLCache :=
  match lookupEntry c.entries k with
  | none => (none, c)
  | some (v, x) =>
    if x < now then (none, TTLCache.mk c.maxsize c.ttl_sec (eraseKey c.entries k))
    else (some v,
      TTLCache.mk c.maxsize c.ttl_sec (eraseKey c.entries k ++ [(k, v, x)]))

/-- Embeds `TTLCache.set`: prune all expired entries, remove an existing
binding of the key, evict LRU entries while at capacity, then append the new
entry (expiry `now + ttl_sec`) at the most-recent end. -/
def TTLCache.set (c : TTLCache) (k : ℕ) (v : ℚ) (now : ℚ) : TTLCache :=
  TTLCache.mk c.maxsize c.ttl_sec
    (evictToFit (eraseKey (pruneExpired c.entries now) k) c.maxsize ++
      [(k, v, now + c.ttl_sec)])

/-- Embeds `TTLCache.size`: the raw entry count, with no pruning. -/
def TTLCache.size (c : TTLCache) : ℕ := c.entries.length

/-- Embeds `TTLCache.clear`. -/
def TTLCache.clear (c : TTLCache) : TTLCache := TTLCache.mk c.maxsize c.ttl_sec []

/-! ## Embedding outlier detector

Embedding of `EmbeddingOutlierDetector`
(`backend/detectors/embedding_outlier.py`).  The composite of the sentence
encoder and the fitted IsolationForest's negated `decision_function` is an
opaque numeric map, modelled by an explicit parameter `rawFn`; the detector
state keeps the `_is_fitted` flag and the `_MinMax` calibration window. -/

inductive DetError where
  | notFitted : DetError
  | emptyInput : DetError
deriving DecidableEq

structure EmbeddingOutlierDetector where
  is_fitted : Bool
  scale_lo : ℚ
  scale_hi : ℚ

/-- State after `EmbeddingOutlierDetector.__init__`: `_is_fitted = False`. -/
def EmbeddingOutlierDetector.init : EmbeddingOutlierDetector :=
  EmbeddingOutlierDetector.mk false 0 0

/-- Embeds `EmbeddingOutlierDetector.fit`: an empty corpus raises
`ValueError`; otherwise record the min-max calibration window of the raw
anomaly scores over the corpus and set `_is_fitted`. -/
def EmbeddingOutlierDetector.fit (rawFn : String → ℚ)
    (_d : EmbeddingOutlierDetector) (corpus_texts : List String) :
    Except DetError EmbeddingOutlierDetector :=
  match corpus_texts with
  | [] => Except.error DetError.emptyInput
  | c :: rest =>
    let raws := (c :: rest).map rawFn
    Except.ok (EmbeddingOutlierDetector.mk true
      (raws.min?.getD 0) (raws.max?.getD 0))

/-- Embeds `EmbeddingOutlierDetector.score`: `RuntimeError` before a
successful `fit`, `ValueError` on an empty text list, otherwise the raw
scores rescaled by the frozen calibration window and clipped into [0,1]. -/
def EmbeddingOutlierDetector.score (rawFn : String → ℚ)
    (d : EmbeddingOutlierDetector) (texts : List String) :
    Except DetError (List ℚ) :=
  if d.is_fitted = false then Except.error DetError.notFitted
  else if texts = [] then Except.error DetError.emptyInput
  else
    Except.ok (texts.map (fun t =>
      clamp01 ((rawFn t - d.scale_lo) /
        max (d.scale_hi - d.scale_lo) (1 / 1000000000))))

/-! ## Audit record signing (MBOM)

Embedding of `_sign_mbom`, `_verify_mbom` and `create_mbom`
(`backend/app.py`).  HMAC-SHA256 over the canonical (sort_keys) JSON dump of
the payload is modelled by an opaque parameter `mac` on the payload
structure (the sorted-key serialization of these field types is injective,
so payload equality models canonical-serialization equality); the SHA-256
content hash of the result list is likewise a parameter `hashFn`. -/

structure SummaryData where
  total_docs : ℕ
  quarantined : ℕ
  allowed : ℕ
  avg_risk : ℚ
deriving DecidableEq

structure DocResultRec where
  doc_id : String
  risk : ℤ
  quarantine : Bool
deriving DecidableEq

/-- Signable payload of `_sign_mbom` / `_verify_mbom`: exactly the six
fields `mbom_id, batch_id, approved_by, timestamp, summary, results_hash`.
`results_hash` is optional because `_verify_mbom` reads it with
`mbom_doc.get("results_hash")`, which yields `None` when absent. -/
structure MBOMPayload where
  mbom_id : String
  batch_id : String
  approved_by : String
  timestamp : String
  summary : SummaryData
  results_hash : Option String
deriving DecidableEq

/-- An MBOM record as handled by `_verify_mbom`: the payload fields plus
the result list and the stored signature.  The `MBOMResponse` produced by
`create_mbom` carries no `results_hash` field (`none`); the audit records
built in `tests/test_value_proof.py` carry it (`some hash`). -/
structure MBOMRecord where
  mbom_id : String
  batch_id : String
  approved_by : String
  timestamp : String
  results : List DocResultRec
  signature : String
  summary : SummaryData
  results_hash : Option String

/-- Python's `round(x, 2)`. -/
def round2 (x : ℚ) : ℚ := (pyRound (x * 100) : ℚ) / 100

/-- Summary computation of `create_mbom`: totals, quarantined/allowed
counts, and the average risk rounded to two decimals. -/
def mbom_summary (results : List DocResultRec) : SummaryData :=
  SummaryData.mk results.length
    (results.filter (fun r => r.quarantine)).length
    (results.length - (results.filter (fun r => r.quarantine)).length)
    (round2 ((results.map (fun r => (r.risk : ℚ))).sum / (results.length : ℚ)))

/-- The payload `_verify_mbom` reconstructs from a record's own fields. -/
def payload_of_record (r : MBOMRecord) : MBOMPayload :=
  MBOMPayload.mk r.mbom_id r.batch_id r.approved_by r.timestamp r.summary
    r.results_hash

/-- Embeds `_sign_mbom(data)`: the MAC of the canonical payload. -/
def sign_mbom (mac : MBOMPayload → String) (p : MBOMPayload) : String := mac p

/-- Embeds `_verify_mbom(mbom_doc)`: reconstruct the payload from the
record's own fields, recompute the signature, and compare it with the
stored one (`hmac.compare_digest`, i.e. string equality). -/
def verify_mbom (mac : MBOMPayload → String) (r : MBOMRecord) : Bool :=
  r.signature == sign_mbom mac (payload_of_record r)

/-- Embeds `create_mbom(req)`: reject an empty result list, compute the
summary, sign the payload (which carries the content hash of the results),
and return the response object — which has no `results_hash` field. -/
def create_mbom (mac : MBOMPayload → String)
    (hashFn : List DocResultRec → String)
    (mbom_id batch_id approved_by timestamp : String)
    (results : List DocResultRec) : Except String MBOMRecord :=
  if results = [] then Except.error "Results cannot be empty"
  else
    let summary := mbom_summary results
    let payload := MBOMPayload.mk mbom_id batch_id approved_by timestamp
      summary (some (hashFn results))
    Except.ok (MBOMRecord.mk mbom_id batch_id approved_by timestamp results
      (sign_mbom mac payload) summary none)

/-- The payload-derived audit record of `tests/test_value_proof.py`
(`test_mbom_generation_and_signing`): the signed payload fields, the
results, the stored `results_hash`, and the signature over that payload. -/
def signed_audit_record (mac : MBOMPayload → String)
    (hashFn : List DocResultRec → String)
    (mbom_id batch_id approved_by timestamp : String)
    (results : List DocResultRec) : MBOMRecord :=
  let summary := mbom_summary results
  let rh := hashFn results
  let payload := MBOMPayload.mk mbom_id batch_id approved_by timestamp
    summary (some rh)
  MBOMRecord.mk mbom_id batch_id approved_by timestamp results
    (sign_mbom mac payload) summary (some rh)

/-- A concrete stand-in for the HMAC used in closed counterexamples: the
verification logic treats the MAC as opaque, so any concrete function
exercises it. -/
def macExample (p : MBOMPayload) : String :=
  p.mbom_id ++ "|" ++ p.batch_id ++ "|" ++ p.approved_by ++ "|" ++
    p.timestamp ++ "|" ++ p.results_hash.getD "null"

/-- A concrete MAC that reads only the approver field, used to witness the
tamper-evidence statement. -/
def macApprover (p : MBOMPayload) : String := p.approved_by

/-- A concrete stand-in for the results content hash. -/
def hashExample (rs : List DocResultRec) : String :=
  String.intercalate ";" (rs.map (fun r => r.doc_id))

def resultsExample : List DocResultRec := [DocResultRec.mk "d1" 80 true]

/-- A concretely signed audit record. -/
def recordExample : MBOMRecord :=
  signed_audit_record macExample hashExample "m1" "b1" "alice" "t1"
    resultsExample

/-- The record `recordExample` with its single result's risk zeroed out,
but signature and results_hash untouched. -/
def riskTamperedExample : MBOMRecord :=
  MBOMRecord.mk recordExample.mbom_id recordExample.batch_id
    recordExample.approved_by recordExample.timestamp
    [DocResultRec.mk "d1" 0 true] recordExample.signature
    recordExample.summary recordExample.results_hash

/-- A concretely signed audit record under the approver-projection MAC. -/
def recordApproverExample : MBOMRecord :=
  signed_audit_record macApprover hashExample "m1" "b1" "alice" "t1"
    resultsExample

/-! ## Bracketed-garbage pattern family

Embedding of `HeuristicDetector._check_bracketed_garbage` together with the
pattern tables `BRACKET_PATTERN`, `MEDICAL_BRACKET_ALLOWLIST` and
`CONSUMER_KEYWORDS` (`backend/detectors/heuristic_detector.py`).  Text is a
list of characters; the specific regexes are implemented directly. -/

/-- Python `\s` (ASCII range): space, tab, newline, carriage return,
vertical tab, form feed. -/
def isPySpace (c : Char) : Bool :=
  c == ' ' || c == '\t' || c == '\n' || c == '\r' || c.toNat == 11 ||
    c.toNat == 12

/-- Whitespace-separated words of a string, empty chunks dropped — the
model of Python `str.split()`. -/
def pyTokens (s : List Char) : List (List Char) :=
  (List.splitOnP isPySpace s).filter (fun w => !w.isEmpty)

/-- Embeds `HeuristicDetector._normalize_text`: strip, lowercase (ASCII),
collapse every whitespace run to a single space.  Equivalently the
lowercased words joined by single spaces. -/
def normalize_text (s : List Char) : List Char :=
  List.intercalate [' '] (pyTokens (s.map Char.toLower))

/-- Scan for the closing bracket: returns the content before the first
`]` and the remainder after it. -/
def splitAtRB : List Char → Option (List Char × List Char)
  | [] => none
  | c :: rest =>
    if c = ']' then some ([], rest)
    else
      match splitAtRB rest with
      | none => none
      | some (p, r) => some (c :: p, r)

/-- Fuelled scanner for `re.findall(BRACKET_PATTERN, text)` with
`BRACKET_PATTERN = r"\[[^\]]{3,60}\]"`: at each `[`, the candidate content
runs to the first `]`; it matches when its length is within 3..60 (scanning
resumes after the match), otherwise the scan advances one character.  The
fuel `s.length` dominates the recursion depth, so the scan never cuts
short. -/
def findBracketsAux : ℕ → List Char → List (List Char)
  | 0, _ => []
  | _ + 1, [] => []
  | fuel + 1, c :: rest =>
    if c = '[' then
      match splitAtRB rest with
      | some (content, rest') =>
        if 3 ≤ content.length ∧ content.length ≤ 60 then
          ('[' :: content ++ [']']) :: findBracketsAux fuel rest'
        else findBracketsAux fuel rest
      | none => findBracketsAux fuel rest
    else findBracketsAux fuel rest

def findBrackets (s : List Char) : List (List Char) :=
  findBracketsAux s.length s

/-- Character class `[A-Z0-9\.]` under `re.IGNORECASE`. -/
def icdAllowedChar (c : Char) : Bool := c.isAlpha || c.isDigit || c == '.'

/-- Case-insensitive literal prefix match (the pattern is lowercase). -/
def matchPrefixCI (pat s : List Char) : Bool :=
  (s.take pat.length).map Char.toLower == pat

/-- Match `pat` (case-insensitively) followed by one or more `allowed`
characters followed by `]` at the head of `s` — the shape of each
`MEDICAL_BRACKET_ALLOWLIST` regex. -/
def matchCodeAt (pat : List Char) (allowed : Char → Bool) (s : List Char) :
    Bool :=
  matchPrefixCI pat s &&
    (let t := s.drop pat.length
     let m := t.takeWhile allowed
     !m.isEmpty && ((t.drop m.length).headD ' ' == ']'))

/-- Embeds `any(re.search(pattern, bracket, re.IGNORECASE) for pattern in
MEDICAL_BRACKET_ALLOWLIST)`: some suffix of the bracket matches
`\[ICD10:[A-Z0-9\.]+\]`, `\[CPT:[0-9]+\]` or `\[SNOMED:[0-9]+\]`. -/
def isMedicalBracket (b : List Char) : Bool :=
  b.tails.any (fun s =>
    matchCodeAt ('[' :: String.toList "icd10:") icdAllowedChar s ||
    matchCodeAt ('[' :: String.toList "cpt:") Char.isDigit s ||
    matchCodeAt ('[' :: String.toList "snomed:") Char.isDigit s)

/-- Python word characters `\w` (ASCII). -/
def isWordChar (c : Char) : Bool := c.isAlphanum || c == '_'

/-- Match the word `w` at position `i` of `s` with `\b` boundaries on both
sides. -/
def matchWordAt (w s : List Char) (i : ℕ) : Bool :=
  ((s.drop i).take w.length == w) &&
    (i == 0 || !isWordChar (s.getD (i - 1) ' ')) &&
    !isWordChar ((s.drop (i + w.length)).headD ' ')

def hasWord (w s : List Char) : Bool :=
  (List.range (s.length + 1)).any (fun i => matchWordAt w s i)

/-- The `CONSUMER_KEYWORDS` alternation
`\b(flight|booked|buy|grocery|party|recipe|travel|hotel|booking|vacation|shopping)\b`. -/
def consumerWords : List (List Char) :=
  [String.toList "flight", String.toList "booked", String.toList "buy",
   String.toList "grocery", String.toList "party", String.toList "recipe",
   String.toList "travel", String.toList "hotel", String.toList "booking",
   String.toList "vacation", String.toList "shopping"]

def hasConsumerKeyword (s : List Char) : Bool :=
  consumerWords.any (fun w => hasWord w s)

/-- Embeds `HeuristicDetector._check_bracketed_garbage(text, tnorm,
tokens)` as called from `detect` (where `tnorm = _normalize_text(text)` and
`tokens = tnorm.split()`): collect bracketed tokens from the original text,
discard the ones matching the medical allowlist, score 0.4 per remaining
suspicious bracket, and add 0.5 when the document is short (< 80 tokens)
and mentions a consumer keyword. -/
def check_bracketed_garbage (text : List Char) : ℚ :=
  let tnorm := normalize_text text
  let tokens := pyTokens tnorm
  let brackets := findBrackets text
  if brackets.isEmpty then 0
  else
    let suspicious := brackets.filter (fun b => !isMedicalBracket b)
    if suspicious.isEmpty then 0
    else (2/5) * (suspicious.length : ℚ) +
      (if tokens.length < 80 ∧ hasConsumerKeyword tnorm then 1/2 else 0)

/-! ## Basic lemmas about the numeric helpers -/

theorem clamp01_nonneg (x : ℚ) : 0 ≤ clamp01 x := le_max_left 0 _

theorem clamp01_le_one (x : ℚ) : clamp01 x ≤ 1 :=
  max_le (by norm_num) (min_le_left 1 x)

theorem clamp01_eq_self {x : ℚ} (h0 : 0 ≤ x) (h1 : x ≤ 1) : clamp01 x = x := by
  unfold clamp01
  rw [min_eq_right h1, max_eq_right h0]

theorem clamp01_mono {x y : ℚ} (h : x ≤ y) : clamp01 x ≤ clamp01 y :=
  max_le_max le_rfl (min_le_min le_rfl h)

theorem clamp01_idem (x : ℚ) : clamp01 (clamp01 x) = clamp01 x :=
  clamp01_eq_self (clamp01_nonneg x) (clamp01_le_one x)

theorem floor_le_pyRound (x : ℚ) : ⌊x⌋ ≤ pyRound x := by
  unfold pyRound
  split_ifs <;> omega

theorem pyRound_le_floor_add_one (x : ℚ) : pyRound x ≤ ⌊x⌋ + 1 := by
  unfold pyRound
  split_ifs <;> omega

theorem pyRound_le_ceil (x : ℚ) : pyRound x ≤ ⌈x⌉ := by
  have hfc : ⌊x⌋ ≤ ⌈x⌉ := Int.floor_le_ceil x
  have hflo : (⌊x⌋ : ℚ) ≤ x := Int.floor_le x
  unfold pyRound
  split_ifs with h1 h2 h3
  · have : (⌊x⌋ : ℚ) < x := by linarith
    have : ⌊x⌋ < ⌈x⌉ := Int.lt_ceil.mpr this
    omega
  · omega
  · omega
  · have hx : (⌊x⌋ : ℚ) < x := by linarith
    have : ⌊x⌋ < ⌈x⌉ := Int.lt_ceil.mpr hx
    omega

theorem pyRound_mono {x y : ℚ} (hxy : x ≤ y) : pyRound x ≤ pyRound y := by
  have hf : ⌊x⌋ ≤ ⌊y⌋ := Int.floor_le_floor hxy
  rcases lt_or_eq_of_le hf with hlt | heq
  · calc pyRound x ≤ ⌊x⌋ + 1 := pyRound_le_floor_add_one x
      _ ≤ ⌊y⌋ := by omega
      _ ≤ pyRound y := floor_le_pyRound y
  · unfold pyRound
    rw [← heq]
    have hfr : x - (⌊x⌋ : ℚ) ≤ y - (⌊x⌋ : ℚ) := by linarith
    split_ifs <;> first | omega | linarith

theorem pyRound_nonneg {x : ℚ} (hx : 0 ≤ x) : 0 ≤ pyRound x := by
  have : (0 : ℤ) ≤ ⌊x⌋ := Int.le_floor.mpr (by exact_mod_cast hx)
  have := floor_le_pyRound x
  omega

theorem pyRound_le_of_le {x : ℚ} {n : ℤ} (hx : x ≤ (n : ℚ)) : pyRound x ≤ n := by
  have h1 : ⌈x⌉ ≤ n := Int.ceil_le.mpr hx
  have h2 := pyRound_le_ceil x
  omega

/-! ## Risk fusion lemmas -/

theorem fusionCore_mono_e {h e1 e2 : ℚ} (he : e1 ≤ e2) :
    fusionCore h e1 ≤ fusionCore h e2 := by
  unfold fusionCore
  split_ifs with hb1 hb2
  · linarith
  · exact min_le_min le_rfl (by linarith)
  · linarith

theorem fusionCore_mono_h {h1 h2 e : ℚ} (he0 : 0 ≤ e) (he : e ≤ 1/2)
    (hh : h1 ≤ h2) : fusionCore h1 e ≤ fusionCore h2 e := by
  unfold fusionCore
  split_ifs with a1 a2 a3 a4 a5 a6 a7
  · linarith
  · refine le_min (by linarith) (by linarith)
  · linarith
  · linarith
  · exact min_le_min le_rfl (by linarith)
  · have hmin : min 1 ((4/5) * h1 + (1/5) * e) ≤ (4/5) * h1 + (1/5) * e :=
      min_le_right _ _
    linarith
  · linarith
  · refine le_min (by linarith) (by linarith)
  · linarith

theorem combine_signals_mono_e {h e1 e2 : ℚ} (he : e1 ≤ e2) :
    combine_signals h e1 ≤ combine_signals h e2 :=
  clamp01_mono (fusionCore_mono_e (clamp01_mono he))

theorem combine_signals_mono_h {h1 h2 e : ℚ} (he : e ≤ 1/2) (hh : h1 ≤ h2) :
    combine_signals h1 e ≤ combine_signals h2 e := by
  have hc0 : 0 ≤ clamp01 e := clamp01_nonneg e
  have hc : clamp01 e ≤ 1/2 :=
    max_le (by norm_num) (le_trans (min_le_right 1 e) he)
  exact clamp01_mono (fusionCore_mono_h hc0 hc (clamp01_mono hh))

theorem risk_to_int_mono {x y : ℚ} (h : x ≤ y) :
    risk_to_int x ≤ risk_to_int y :=
  pyRound_mono (mul_le_mul_of_nonneg_right (clamp01_mono h) (by norm_num))

theorem risk_to_int_nonneg (x : ℚ) : 0 ≤ risk_to_int x :=
  pyRound_nonneg (mul_nonneg (clamp01_nonneg x) (by norm_num))

theorem risk_to_int_le_100 (x : ℚ) : risk_to_int x ≤ 100 :=
  pyRound_le_of_le (by
    have := clamp01_le_one x
    push_cast
    nlinarith)

/-! ## Claim C1 -/

/-- C1: for every heuristic score h and embedding score e in [0,1], the
engine's risk fusion (`_combine_signals` plus `_risk_to_int` in
`backend/app.py`) computes exactly the priority-weighted rule of the
specification — `0.1*e` when `h < 0.15`, `0.8*h + 0.2*e` when `h > 0.5`,
`0.6*h + 0.4*e` otherwise — and the reported risk equals
`round(clamp(combined,0,1) * 100)`; moreover no flat weighted average
`a*h + b*e` reproduces the fusion on [0,1]×[0,1]. -/
theorem C1_priority_weighted_fusion :
    (∀ h e : ℚ, 0 ≤ h → h ≤ 1 → 0 ≤ e → e ≤ 1 →
      combine_signals h e = specFusedCombined h e ∧
      risk_to_int (combine_signals h e) = specFusedRisk h e) ∧
    ¬ ∃ a b : ℚ, ∀ h e : ℚ, 0 ≤ h → h ≤ 1 → 0 ≤ e → e ≤ 1 →
      combine_signals h e = a * h + b * e := by
  constructor
  · intro h e h0 h1 e0 e1
    have hch : clamp01 h = h := clamp01_eq_self h0 h1
    have hce : clamp01 e = e := clamp01_eq_self e0 e1
    have hmain : combine_signals h e = specFusedCombined h e := by
      unfold combine_signals fusionCore specFusedCombined
      rw [hch, hce]
      split_ifs with hb1 hb2
      · exact clamp01_eq_self (by linarith) (by linarith)
      · rw [min_eq_right (by linarith)]
        exact clamp01_eq_self (by linarith) (by linarith)
      · exact clamp01_eq_self (by linarith) (by linarith)
    refine ⟨hmain, ?_⟩
    unfold risk_to_int specFusedRisk
    rw [hmain]
  · rintro ⟨a, b, hab⟩
    have h01 := hab 0 1 (by norm_num) (by norm_num) (by norm_num) (by norm_num)
    have h10 := hab 1 0 (by norm_num) (by norm_num) (by norm_num) (by norm_num)
    have h11 := hab 1 1 (by norm_num) (by norm_num) (by norm_num) (by norm_num)
    have e01 : combine_signals 0 1 = 1/10 := by
      norm_num [combine_signals, fusionCore, clamp01, min_def, max_def]
    have e10 : combine_signals 1 0 = 4/5 := by
      norm_num [combine_signals, fusionCore, clamp01, min_def, max_def]
    have e11 : combine_signals 1 1 = 1 := by
      norm_num [combine_signals, fusionCore, clamp01, min_def, max_def]
    rw [e01] at h01
    rw [e10] at h10
    rw [e11] at h11
    nlinarith

/-- Witness for C1 at the concrete point h = 3/10, e = 1/2. -/
theorem C1_priority_weighted_fusion_witness :
    combine_signals (3/10) (1/2) = specFusedCombined (3/10) (1/2) :=
  (C1_priority_weighted_fusion.1 (3/10) (1/2) (by norm_num) (by norm_num)
    (by norm_num) (by norm_num)).1

/-! ## Claim C2 -/

/-- C2 counterexample: the engine's fused risk is not monotone in the
heuristic signal.  At e = 1, raising h from 1/2 to 3/5 crosses the
`h > 0.5` priority breakpoint and the fused risk drops from 70 to 68. -/
theorem C2_counterexample :
    ((1:ℚ)/2 ≤ 3/5) ∧
    risk_to_int (combine_signals (1/2) 1) = 70 ∧
    risk_to_int (combine_signals (3/5) 1) = 68 ∧
    risk_to_int (combine_signals (3/5) 1) < risk_to_int (combine_signals (1/2) 1) := by
  norm_num [risk_to_int, combine_signals, fusionCore, clamp01, pyRound,
    min_def, max_def]

/-- C2 amended: the fused risk is monotone non-decreasing in the embedding
signal for a fixed heuristic signal; it is monotone non-decreasing in the
heuristic signal only when the embedding signal is at most 1/2 — for larger
embedding scores monotonicity in h fails at the `h > 0.5` breakpoint. -/
theorem C2_monotonicity_amended :
    (∀ h e1 e2 : ℚ, e1 ≤ e2 →
      risk_to_int (combine_signals h e1) ≤ risk_to_int (combine_signals h e2)) ∧
    (∀ h1 h2 e : ℚ, e ≤ 1/2 → h1 ≤ h2 →
      risk_to_int (combine_signals h1 e) ≤ risk_to_int (combine_signals h2 e)) :=
  ⟨fun _ _ _ he => risk_to_int_mono (combine_signals_mono_e he),
   fun _ _ _ he hh => risk_to_int_mono (combine_signals_mono_h he hh)⟩

/-- Witness for C2 amended at concrete signal values. -/
theorem C2_monotonicity_amended_witness :
    risk_to_int (combine_signals (1/4) (1/5)) ≤
      risk_to_int (combine_signals (1/4) (2/5)) ∧
    risk_to_int (combine_signals (1/4) (2/5)) ≤
      risk_to_int (combine_signals (7/10) (2/5)) :=
  ⟨C2_monotonicity_amended.1 (1/4) (1/5) (2/5) (by norm_num),
   C2_monotonicity_amended.2 (1/4) (7/10) (2/5) (by norm_num) (by norm_num)⟩

/-! ## Claim C3 -/

/-- C3: for every pair of signals the engine's fused risk is an integer in
[0,100] and quarantine holds iff the risk reaches the configured threshold;
the same invariant holds for every Ok result of `fuse_scores` on
in-range inputs. -/
theorem C3_risk_bounds_quarantine :
    (∀ h e : ℚ, ∀ threshold : ℤ,
      0 ≤ risk_to_int (combine_signals h e) ∧
      risk_to_int (combine_signals h e) ≤ 100 ∧
      (analyze_quarantine h e threshold = true ↔
        threshold ≤ risk_to_int (combine_signals h e))) ∧
    (∀ heur embed hw ew : ℚ, ∀ threshold : ℤ,
      0 ≤ heur → heur ≤ 1 → 0 ≤ embed → embed ≤ 1 →
      ∃ r q, fuse_scores heur embed hw ew threshold = Except.ok (r, q) ∧
        0 ≤ r ∧ r ≤ 100 ∧ (q = true ↔ threshold ≤ r)) := by
  constructor
  · intro h e threshold
    refine ⟨risk_to_int_nonneg _, risk_to_int_le_100 _, ?_⟩
    simp [analyze_quarantine]
  · intro heur embed hw ew threshold h0 h1 e0 e1
    refine ⟨max 0 (min 100 (pyRound ((heur * hw + embed * ew) * 100))),
      decide (threshold ≤ max 0 (min 100 (pyRound ((heur * hw + embed * ew) * 100)))),
      ?_, le_max_left _ _, max_le (by norm_num) (min_le_left _ _), by simp⟩
    unfold fuse_scores
    rw [if_neg (not_not_intro ⟨h0, h1⟩), if_neg (not_not_intro ⟨e0, e1⟩)]

/-- Witness for C3 at concrete in-range inputs and the default threshold. -/
theorem C3_risk_bounds_quarantine_witness :
    ∃ r q, fuse_scores (1/2) (1/2) heuristic_weight_default
        embedding_weight_default risk_quarantine_threshold_default =
        Except.ok (r, q) ∧ 0 ≤ r ∧ r ≤ 100 ∧ (q = true ↔ risk_quarantine_threshold_default ≤ r) :=
  C3_risk_bounds_quarantine.2 (1/2) (1/2) heuristic_weight_default
    embedding_weight_default risk_quarantine_threshold_default
    (by norm_num) (by norm_num) (by norm_num) (by norm_num)

/-! ## Claim C4 -/

/-- C4 counterexample: the engine's fusion `_combine_signals` does not raise
on the out-of-range heuristic input 3/2; it silently clamps it to 1 and
continues, returning the same (normal) value as for the in-range input 1. -/
theorem C4_counterexample :
    combine_signals (3/2) 0 = combine_signals 1 0 ∧
    combine_signals 1 0 = 4/5 ∧ ¬ ((3/2 : ℚ) ≤ 1) := by
  norm_num [combine_signals, fusionCore, clamp01, min_def, max_def]

/-- C4 amended: the standalone `fuse_scores` operation rejects out-of-range
signals with an explicit error, while the fusion actually wired into the
engine (`_combine_signals`) silently clamps both inputs into [0,1]. -/
theorem C4_validation_amended :
    (∀ heur embed hw ew : ℚ, ∀ threshold : ℤ, ¬ (0 ≤ heur ∧ heur ≤ 1) →
      fuse_scores heur embed hw ew threshold =
        Except.error "heur must be in [0, 1]") ∧
    (∀ heur embed hw ew : ℚ, ∀ threshold : ℤ, (0 ≤ heur ∧ heur ≤ 1) →
      ¬ (0 ≤ embed ∧ embed ≤ 1) →
      fuse_scores heur embed hw ew threshold =
        Except.error "embed must be in [0, 1]") ∧
    (∀ h e : ℚ, combine_signals h e = combine_signals (clamp01 h) (clamp01 e)) := by
  refine ⟨?_, ?_, ?_⟩
  · intro heur embed hw ew threshold hbad
    unfold fuse_scores
    rw [if_pos hbad]
  · intro heur embed hw ew threshold hok hbad
    unfold fuse_scores
    rw [if_neg (not_not_intro hok), if_pos hbad]
  · intro h e
    unfold combine_signals
    rw [clamp01_idem, clamp01_idem]

/-- Witness for C4 amended: out-of-range heuristic 3/2 is rejected by
`fuse_scores`. -/
theorem C4_validation_amended_witness :
    fuse_scores (3/2) 0 heuristic_weight_default embedding_weight_default
      risk_quarantine_threshold_default = Except.error "heur must be in [0, 1]" :=
  C4_validation_amended.1 (3/2) 0 heuristic_weight_default
    embedding_weight_default risk_quarantine_threshold_default (by norm_num)

/-! ## Claim C5 -/

/-- C5 counterexample: at the reachable raw accumulated score 3/2 (for
example the single high-severity phrase hit of the text "when you see",
which contributes `1.5 * 1`) the code's final-score step
`min(1, max(0, raw) * 0.4)` yields 3/5, while the claimed
clamp-then-multiply formula yields 2/5; in particular the final score does
exceed 0.4. -/
theorem C5_counterexample :
    heuristic_finalize (3/2) detector_weight_default = 3/5 ∧
    spec_heuristic_finalize (3/2) detector_weight_default = 2/5 ∧
    ¬ heuristic_finalize (3/2) detector_weight_default ≤ 2/5 := by
  norm_num [heuristic_finalize, spec_heuristic_finalize,
    detector_weight_default, clamp01, min_def, max_def]

/-- C5 amended: the detector's final score is `min(1, max(0, raw) * weight)`
— multiply first, cap at 1 afterwards.  This agrees with the claimed
clamp-multiply-clamp formula (and stays at or below the weight 0.4) exactly
when the raw accumulated score is at most 1; in general the final score is
only bounded by 1. -/
theorem C5_finalize_amended :
    (∀ raw w : ℚ, 0 ≤ w → 0 ≤ raw → raw ≤ 1 →
      heuristic_finalize raw w = spec_heuristic_finalize raw w) ∧
    (∀ raw : ℚ, 0 ≤ raw → raw ≤ 1 →
      heuristic_finalize raw detector_weight_default ≤ 2/5) ∧
    (∀ raw w : ℚ, heuristic_finalize raw w ≤ 1) ∧
    (∀ raw w : ℚ, 0 ≤ w → 0 ≤ heuristic_finalize raw w) := by
  refine ⟨?_, ?_, ?_, ?_⟩
  · intro raw w hw h0 h1
    unfold heuristic_finalize spec_heuristic_finalize
    rw [clamp01_eq_self h0 h1, max_eq_right h0]
    unfold clamp01
    rw [max_eq_right (le_min (by norm_num) (mul_nonneg h0 hw))]
  · intro raw h0 h1
    unfold heuristic_finalize detector_weight_default
    rw [max_eq_right h0]
    exact le_trans (min_le_right _ _) (by linarith)
  · intro raw w
    exact min_le_left _ _
  · intro raw w hw
    exact le_min (by norm_num) (mul_nonneg (le_max_left _ _) hw)

/-- Witness for C5 amended at raw = 1/2 with the default weight. -/
theorem C5_finalize_amended_witness :
    heuristic_finalize (1/2) detector_weight_default =
      spec_heuristic_finalize (1/2) detector_weight_default ∧
    heuristic_finalize (1/2) detector_weight_default ≤ 2/5 :=
  ⟨C5_finalize_amended.1 (1/2) detector_weight_default
      (by norm_num [detector_weight_default]) (by norm_num) (by norm_num),
   C5_finalize_amended.2.1 (1/2) (by norm_num) (by norm_num)⟩

/-! ## Cache lemmas -/

theorem lookupEntry_append_not_mem {l : List (ℕ × ℚ × ℚ)} {k : ℕ} (v x : ℚ)
    (h : ∀ e ∈ l, e.1 ≠ k) :
    lookupEntry (l ++ [(k, v, x)]) k = some (v, x) := by
  induction l with
  | nil => simp [lookupEntry]
  | cons e rest ih =>
    have he : e.1 ≠ k := h e (List.mem_cons_self e rest)
    simp only [List.cons_append, lookupEntry, if_neg he]
    exact ih fun e' he' => h e' (List.mem_cons_of_mem e he')

theorem eraseKey_not_mem (l : List (ℕ × ℚ × ℚ)) (k : ℕ) :
    ∀ e ∈ eraseKey l k, e.1 ≠ k := by
  induction l with
  | nil => intro e he; simp [eraseKey] at he
  | cons a rest ih =>
    intro e he
    by_cases ha : a.1 = k
    · rw [eraseKey, if_pos ha] at he
      exact ih e he
    · rw [eraseKey, if_neg ha] at he
      rcases List.mem_cons.mp he with rfl | hmem
      · exact ha
      · exact ih e hmem

theorem eraseKey_eq_self {l : List (ℕ × ℚ × ℚ)} {k : ℕ}
    (h : ∀ e ∈ l, e.1 ≠ k) : eraseKey l k = l := by
  induction l with
  | nil => rfl
  | cons a rest ih =>
    rw [eraseKey, if_neg (h a (List.mem_cons_self a rest))]
    rw [ih fun e he => h e (List.mem_cons_of_mem a he)]

theorem pruneExpired_eq_self {l : List (ℕ × ℚ × ℚ)} {now : ℚ}
    (h : ∀ e ∈ l, ¬ e.2.2 < now) : pruneExpired l now = l := by
  induction l with
  | nil => rfl
  | cons a rest ih =>
    rw [pruneExpired, if_neg (h a (List.mem_cons_self a rest))]
    rw [ih fun e he => h e (List.mem_cons_of_mem a he)]

theorem mem_evictToFit {l : List (ℕ × ℚ × ℚ)} {m : ℕ} :
    ∀ e ∈ evictToFit l m, e ∈ l := by
  induction l with
  | nil => intro e he; simp [evictToFit] at he
  | cons a rest ih =>
    intro e he
    rw [evictToFit] at he
    by_cases hc : m ≤ (a :: rest).length
    · rw [if_pos hc] at he
      exact List.mem_cons_of_mem a (ih e he)
    · rwa [if_neg hc] at he

theorem evictToFit_of_lt {l : List (ℕ × ℚ × ℚ)} {m : ℕ}
    (h : l.length < m) : evictToFit l m = l := by
  cases l with
  | nil => rfl
  | cons a rest => rw [evictToFit, if_neg (not_le.mpr h)]

theorem lookupEntry_set (c : TTLCache) (k : ℕ) (v t : ℚ) :
    lookupEntry (TTLCache.set c k v t).entries k = some (v, t + c.ttl_sec) := by
  unfold TTLCache.set
  exact lookupEntry_append_not_mem v (t + c.ttl_sec)
    fun e he => eraseKey_not_mem _ k e (mem_evictToFit e he)

/-! ## Claim C7 -/

/-- C7: for the TTL+LRU cache, a `set` followed by a `get` of the same key
at or before the expiry time returns the stored value, a `get` after the
expiry time returns none, an insert of a fresh key at capacity (with no
expired entries) evicts exactly the single least-recently-used entry (the
head), and a read hit moves the key to the most-recently-used end. -/
theorem C7_cache_ttl_lru :
    (∀ (c : TTLCache) (k : ℕ) (v t t' : ℚ), t' ≤ t + c.ttl_sec →
      (TTLCache.get (TTLCache.set c k v t) k t').1 = some v) ∧
    (∀ (c : TTLCache) (k : ℕ) (v t t' : ℚ), t + c.ttl_sec < t' →
      (TTLCache.get (TTLCache.set c k v t) k t').1 = none) ∧
    (∀ (c : TTLCache) (k : ℕ) (v t : ℚ), 1 ≤ c.maxsize →
      c.entries.length = c.maxsize →
      (∀ e ∈ c.entries, ¬ e.2.2 < t) → (∀ e ∈ c.entries, e.1 ≠ k) →
      (TTLCache.set c k v t).entries =
        c.entries.tail ++ [(k, v, t + c.ttl_sec)]) ∧
    (∀ (c : TTLCache) (k : ℕ) (t v : ℚ), (TTLCache.get c k t).1 = some v →
      ∃ x, lookupEntry c.entries k = some (v, x) ∧
        (TTLCache.get c k t).2.entries = eraseKey c.entries k ++ [(k, v, x)]) := by
  refine ⟨?_, ?_, ?_, ?_⟩
  · intro c k v t t' ht'
    simp only [TTLCache.get, lookupEntry_set]
    rw [if_neg (not_lt.mpr ht')]
  · intro c k v t t' ht'
    simp only [TTLCache.get, lookupEntry_set]
    rw [if_pos ht']
  · intro c k v t hms hlen hfresh hkey
    unfold TTLCache.set
    rw [pruneExpired_eq_self hfresh, eraseKey_eq_self hkey]
    show evictToFit c.entries c.maxsize ++ [(k, v, t + c.ttl_sec)] =
      c.entries.tail ++ [(k, v, t + c.ttl_sec)]
    cases hc : c.entries with
    | nil =>
      rw [hc] at hlen
      simp at hlen
      omega
    | cons a rest =>
      rw [hc] at hlen
      simp only [List.length_cons] at hlen
      rw [evictToFit, if_pos (by simp only [List.length_cons]; omega),
        List.tail_cons, evictToFit_of_lt (show rest.length < c.maxsize by omega)]
  · intro c k t v h
    cases hl : lookupEntry c.entries k with
    | none =>
      simp only [TTLCache.get, hl] at h
      exact absurd h (by simp)
    | some vx =>
      obtain ⟨v', x⟩ := vx
      by_cases hx : x < t
      · simp only [TTLCache.get, hl, if_pos hx] at h
        exact absurd h (by simp)
      · simp only [TTLCache.get, hl, if_neg hx, Option.some.injEq] at h
        subst h
        refine ⟨x, rfl, ?_⟩
        simp only [TTLCache.get, hl, if_neg hx]

/-- Witness for C7: a concrete round-trip and a concrete LRU eviction. -/
theorem C7_cache_ttl_lru_witness :
    (TTLCache.get (TTLCache.set (TTLCache.mk 4 600 []) 1 (17/20) 0) 1 300).1 =
      some (17/20) ∧
    (TTLCache.set (TTLCache.mk 2 600 [(1, 1, 900), (2, 2, 900)]) 3 3 0).entries =
      [(2, 2, 900), (3, 3, 600)] := by
  constructor
  · exact C7_cache_ttl_lru.1 (TTLCache.mk 4 600 []) 1 (17/20) 0 300 (by norm_num)
  · have h := C7_cache_ttl_lru.2.2.1 (TTLCache.mk 2 600 [(1, 1, 900), (2, 2, 900)])
      3 3 0 (by norm_num) (by simp)
      (by intro e he; simp at he; rcases he with h | h <;> subst h <;> norm_num)
      (by intro e he; simp at he; rcases he with h | h <;> subst h <;> norm_num)
    simpa using h

/-! ## Claim C10 -/

/-- C10: `size()` reports the raw number of stored entries without pruning:
after a `set` whose TTL has since elapsed (and no intervening `set` or
`get` of that key), `size()` still counts the expired entry while `get` of
that key returns none and removes it. -/
theorem C10_size_counts_expired :
    ∀ (ms : ℕ) (ttl v t0 t : ℚ) (k : ℕ), 1 ≤ ms → t0 + ttl < t →
      TTLCache.size (TTLCache.set (TTLCache.mk ms ttl []) k v t0) = 1 ∧
      (TTLCache.get (TTLCache.set (TTLCache.mk ms ttl []) k v t0) k t).1 = none ∧
      ((TTLCache.get (TTLCache.set (TTLCache.mk ms ttl []) k v t0) k t).2).entries = [] := by
  intro ms ttl v t0 t k hms ht
  have hset : (TTLCache.set (TTLCache.mk ms ttl []) k v t0).entries =
      [(k, v, t0 + ttl)] := by
    simp [TTLCache.set, pruneExpired, eraseKey, evictToFit]
  refine ⟨?_, ?_, ?_⟩
  · simp [TTLCache.size, hset]
  · simp [TTLCache.get, hset, lookupEntry, ht]
  · simp [TTLCache.get, hset, lookupEntry, eraseKey, ht]

/-- Witness for C10 at a concrete expired entry. -/
theorem C10_size_counts_expired_witness :
    TTLCache.size (TTLCache.set (TTLCache.mk 4 600 []) 7 (1/2) 0) = 1 ∧
    (TTLCache.get (TTLCache.set (TTLCache.mk 4 600 []) 7 (1/2) 0) 7 601).1 = none ∧
    ((TTLCache.get (TTLCache.set (TTLCache.mk 4 600 []) 7 (1/2) 0) 7 601).2).entries = [] :=
  C10_size_counts_expired 4 600 (1/2) 0 601 7 (by norm_num) (by norm_num)

/-! ## Claim C8 -/

/-- C8: scoring before a successful fit yields the not-fitted precondition
error; fitting on an empty corpus errors; scoring an empty text list never
returns a value; and any successful fit leaves the detector fitted. -/
theorem C8_detector_preconditions :
    (∀ (rawFn : String → ℚ) (d : EmbeddingOutlierDetector) (texts : List String),
      d.is_fitted = false →
      EmbeddingOutlierDetector.score rawFn d texts = Except.error DetError.notFitted) ∧
    (∀ (rawFn : String → ℚ) (d : EmbeddingOutlierDetector),
      EmbeddingOutlierDetector.fit rawFn d [] = Except.error DetError.emptyInput) ∧
    (∀ (rawFn : String → ℚ) (d : EmbeddingOutlierDetector),
      ∃ er, EmbeddingOutlierDetector.score rawFn d [] = Except.error er) ∧
    (∀ (rawFn : String → ℚ) (d d' : EmbeddingOutlierDetector) (corpus : List String),
      EmbeddingOutlierDetector.fit rawFn d corpus = Except.ok d' →
      d'.is_fitted = true) := by
  refine ⟨?_, ?_, ?_, ?_⟩
  · intro rawFn d texts hd
    unfold EmbeddingOutlierDetector.score
    rw [if_pos hd]
  · intro rawFn d
    rfl
  · intro rawFn d
    by_cases hd : d.is_fitted = false
    · exact ⟨DetError.notFitted, by
        unfold EmbeddingOutlierDetector.score; rw [if_pos hd]⟩
    · exact ⟨DetError.emptyInput, by
        unfold EmbeddingOutlierDetector.score; rw [if_neg hd, if_pos rfl]⟩
  · intro rawFn d d' corpus hfit
    cases corpus with
    | nil => simp [EmbeddingOutlierDetector.fit] at hfit
    | cons c rest =>
      simp [EmbeddingOutlierDetector.fit] at hfit
      rw [← hfit]

/-- Witness for C8 on a freshly initialized detector. -/
theorem C8_detector_preconditions_witness :
    EmbeddingOutlierDetector.score (fun _ => 0) EmbeddingOutlierDetector.init
      ["hello"] = Except.error DetError.notFitted ∧
    (∃ er, EmbeddingOutlierDetector.score (fun _ => 0)
      EmbeddingOutlierDetector.init [] = Except.error er) :=
  ⟨C8_detector_preconditions.1 (fun _ => 0) EmbeddingOutlierDetector.init
      ["hello"] rfl,
   C8_detector_preconditions.2.2.1 (fun _ => 0) EmbeddingOutlierDetector.init⟩

/-! ## Claim C6 -/

/-- C6 counterexample: zeroing one result's risk in a signed audit record —
leaving the stored `results_hash` untouched — does not flip verification to
false, because `_verify_mbom` recomputes the signature only over the stored
payload fields and never rehashes the results; moreover the response object
returned by `create_mbom` itself fails re-verification unmodified, since it
carries no `results_hash` field. -/
theorem C6_counterexample :
    verify_mbom macExample riskTamperedExample = true ∧
    riskTamperedExample.results ≠ recordExample.results ∧
    (create_mbom macExample hashExample "m1" "b1" "alice" "t1"
      resultsExample).map (verify_mbom macExample) = Except.ok false := by
  refine ⟨by decide, by decide, by rfl⟩

/-- C6 amended: verification of an unmodified payload-derived audit record
(one carrying the six signed fields, `results_hash` included) succeeds;
mutating the approver or the timestamp flips verification to false whenever
the MAC separates the two canonical payloads (the collision-freeness of
HMAC-SHA256); mutating the result list — one result's risk in particular —
never changes the verification outcome. -/
theorem C6_sign_verify_amended :
    (∀ (mac : MBOMPayload → String) (hashFn : List DocResultRec → String)
       (i b a ts : String) (rs : List DocResultRec),
      verify_mbom mac (signed_audit_record mac hashFn i b a ts rs) = true) ∧
    (∀ (mac : MBOMPayload → String) (r : MBOMRecord) (a' : String),
      r.signature = mac (payload_of_record r) →
      mac (payload_of_record { r with approved_by := a' }) ≠
        mac (payload_of_record r) →
      verify_mbom mac { r with approved_by := a' } = false) ∧
    (∀ (mac : MBOMPayload → String) (r : MBOMRecord) (ts' : String),
      r.signature = mac (payload_of_record r) →
      mac (payload_of_record { r with timestamp := ts' }) ≠
        mac (payload_of_record r) →
      verify_mbom mac { r with timestamp := ts' } = false) ∧
    (∀ (mac : MBOMPayload → String) (r : MBOMRecord) (rs' : List DocResultRec),
      verify_mbom mac { r with results := rs' } = verify_mbom mac r) := by
  refine ⟨?_, ?_, ?_, ?_⟩
  · intro mac hashFn i b a ts rs
    simp [verify_mbom, sign_mbom, signed_audit_record, payload_of_record]
  · intro mac r a' hsig hne
    unfold verify_mbom sign_mbom
    rw [show ({ r with approved_by := a' } : MBOMRecord).signature =
      r.signature from rfl, hsig]
    exact beq_eq_false_iff_ne.mpr (Ne.symm hne)
  · intro mac r ts' hsig hne
    unfold verify_mbom sign_mbom
    rw [show ({ r with timestamp := ts' } : MBOMRecord).signature =
      r.signature from rfl, hsig]
    exact beq_eq_false_iff_ne.mpr (Ne.symm hne)
  · intro mac r rs'
    rfl

/-- Witness for C6 amended: a concrete round-trip and a concrete approver
mutation detected under an approver-reading MAC. -/
theorem C6_sign_verify_amended_witness :
    verify_mbom macExample recordExample = true ∧
    verify_mbom macApprover
      { recordApproverExample with approved_by := "bob" } = false :=
  ⟨C6_sign_verify_amended.1 macExample hashExample "m1" "b1" "alice" "t1"
      resultsExample,
   C6_sign_verify_amended.2.1 macApprover recordApproverExample "bob" rfl
      (by decide)⟩

/-! ## Claim C9 -/

/-- C9: a bracketed token matching the medical-code allowlist (such as
`[ICD10:E11.9]`) contributes nothing to the bracketed-garbage family —
texts whose bracketed tokens are all allowlisted score 0 — while any
non-allowlisted bracketed token (such as `[APPENDED_IRRELEVANT]`) makes the
family score at least 0.4; illustrated on the specification's own
scenario texts. -/
theorem C9_bracket_allowlist :
    isMedicalBracket (String.toList "[ICD10:E11.9]") = true ∧
    isMedicalBracket (String.toList "[APPENDED_IRRELEVANT]") = false ∧
    (∀ text : List Char,
      (findBrackets text).filter (fun b => !isMedicalBracket b) = [] →
      check_bracketed_garbage text = 0) ∧
    (∀ text : List Char,
      (findBrackets text).filter (fun b => !isMedicalBracket b) ≠ [] →
      2/5 ≤ check_bracketed_garbage text) ∧
    check_bracketed_garbage
      (String.toList "exam notes [ICD10:E11.9] stable") = 0 ∧
    check_bracketed_garbage
      (String.toList "exam notes [APPENDED_IRRELEVANT] stable") = 2/5 := by
  have hgenZero : ∀ text : List Char,
      (findBrackets text).filter (fun b => !isMedicalBracket b) = [] →
      check_bracketed_garbage text = 0 := by
    intro text hf
    simp [check_bracketed_garbage, hf]
  have hgenPos : ∀ text : List Char,
      (findBrackets text).filter (fun b => !isMedicalBracket b) ≠ [] →
      2/5 ≤ check_bracketed_garbage text := by
    intro text hf
    have hbne : findBrackets text ≠ [] := by
      intro h
      exact hf (by rw [h]; rfl)
    have hbe : (findBrackets text).isEmpty = false := by
      cases hcase : findBrackets text with
      | nil => exact absurd hcase hbne
      | cons a l => rfl
    have hse : ((findBrackets text).filter
        (fun b => !isMedicalBracket b)).isEmpty = false := by
      cases hcase : (findBrackets text).filter (fun b => !isMedicalBracket b) with
      | nil => exact absurd hcase hf
      | cons a l => rfl
    have hlen : 0 < ((findBrackets text).filter
        (fun b => !isMedicalBracket b)).length := List.length_pos.mpr hf
    have hlenq : (1 : ℚ) ≤ (((findBrackets text).filter
        (fun b => !isMedicalBracket b)).length : ℚ) := by
      exact_mod_cast hlen
    simp only [check_bracketed_garbage, hbe, hse, Bool.false_eq_true,
      if_false]
    split_ifs <;> nlinarith [hlenq]
  refine ⟨by decide, by decide, hgenZero, hgenPos, ?_, ?_⟩
  · exact hgenZero _ (by decide)
  · have h1 : ((findBrackets
        (String.toList "exam notes [APPENDED_IRRELEVANT] stable")).filter
        (fun b => !isMedicalBracket b)).length = 1 := by decide
    have h2 : (findBrackets
        (String.toList "exam notes [APPENDED_IRRELEVANT] stable")).isEmpty =
        false := by decide
    have h3 : ((findBrackets
        (String.toList "exam notes [APPENDED_IRRELEVANT] stable")).filter
        (fun b => !isMedicalBracket b)).isEmpty = false := by decide
    have h4 : ¬ ((pyTokens (normalize_text
        (String.toList "exam notes [APPENDED_IRRELEVANT] stable"))).length < 80 ∧
        hasConsumerKeyword (normalize_text
        (String.toList "exam notes [APPENDED_IRRELEVANT] stable")) = true) := by
      decide
    simp only [check_bracketed_garbage, h1, h2, h3, Bool.false_eq_true,
      if_false]
    rw [if_neg h4]
    norm_num

/-- Witness for C9 on fresh concrete texts: an allowlisted CPT code scores
0 and a non-allowlisted bracketed token scores at least 0.4. -/
theorem C9_bracket_allowlist_witness :
    check_bracketed_garbage (String.toList "clinic [CPT:99213] visit") = 0 ∧
    2/5 ≤ check_bracketed_garbage (String.toList "see [INJECT_NOW] here") :=
  ⟨C9_bracket_allowlist.2.2.1 _ (by decide),
   C9_bracket_allowlist.2.2.2.1 _ (by decide)⟩
